import Mathlib

/-!
Shallow embedding of the actix-bincode bounded streaming decoder
(src/body.rs, src/config.rs, src/error.rs, src/lib.rs) and proofs about it.

Modelling conventions:
* Byte chunks are `List Nat`; a payload stream is the ordered list of items
  the stream would yield, each either a chunk or a transport read failure
  (`Except String (List Nat)`, mirroring `Result<Bytes, PayloadError>`).
* The request is split into its header view (`HttpRequest`) and its attached
  application data (`AppData`), mirroring how `from_request` receives the
  request and the payload separately.
* `pollOutcome` models driving the `BincodeBody` future to completion; it is
  instrumented with the number of chunk reads issued to the stream, which is
  the externally observable quantity the spec talks about (zero reads before
  gating/length rejection, exactly k reads on overflow at chunk k).
* Status codes are modelled as their numeric value (413, 400).
-/

/-- Failure taxonomy of src/error.rs: `BincodePayloadError`. The `Deserialize`
and `Payload` variants carry the wrapped diagnostic, modelled as a string. -/
inductive BincodePayloadError where
  | Overflow
  | ContentType
  | Deserialize (diag : String)
  | Payload (diag : String)
deriving DecidableEq

/-- Models `actix_web::Error` at the interface boundary: either the default
conversion of a `BincodePayloadError` (the `e.into()` path through the
`ResponseError` impl) or an arbitrary error built by a caller-supplied
error handler. -/
inductive ActixError where
  | fromPayload (e : BincodePayloadError)
  | custom (code : Nat)
deriving DecidableEq

/-- Models `ResponseError::error_response` for `BincodePayloadError`
(src/error.rs), reduced to the status code of the produced response:
`Overflow => StatusCode::PAYLOAD_TOO_LARGE, _ => StatusCode::BAD_REQUEST`. -/
def BincodePayloadError.error_response_status : BincodePayloadError → Nat
  | BincodePayloadError.Overflow => 413
  | _ => 400

/-- One item yielded by the payload stream: a chunk of bytes or a transport
read failure. -/
abbrev PayloadItem := Except String (List Nat)

/-- The not-yet-drained payload stream, as the ordered list of items it
will yield. -/
abbrev Payload := List PayloadItem

/-- Request headers relevant to the decoder: the Content-Type and
Content-Length header values, when present. -/
structure HttpRequest where
  contentTypeHeader : Option String
  contentLengthHeader : Option String
deriving DecidableEq

/-- Models actix-web `HttpMessage::content_type` at the interface boundary:
the Content-Type header value, or the empty string when the header is absent
(or unreadable, which we fold into absence). -/
def HttpRequest.contentType (req : HttpRequest) : String :=
  req.contentTypeHeader.getD ""

/-- Decimal parse of a header value, modelling `str::parse::<usize>().ok()`:
a non-empty all-digit string yields its value, anything else yields `none`
(machine-width overflow and a leading plus sign are not modelled). -/
def parseDecimal (s : String) : Option Nat :=
  if s.data ≠ [] ∧ s.data.all Char.isDigit then
    some (s.data.foldl (fun acc c => acc * 10 + (c.toNat - 48)) 0)
  else none

/-- Models the Content-Length extraction in `BincodeBody::new` (src/body.rs):
`headers().get(CONTENT_LENGTH).and_then(to_str).and_then(parse::<usize>)`.
An absent or unparseable header yields `none`. -/
def HttpRequest.contentLength (req : HttpRequest) : Option Nat :=
  req.contentLengthHeader.bind parseDecimal

/-- The content-type check of `BincodeBody::new` (src/body.rs):
`mime == "application/bincode" || mime == "bincode"
  || ctype.as_ref().map_or(false, |predicate| predicate(mime))`. -/
def contentTypeGate (mime : String) (ctype : Option (String → Bool)) : Bool :=
  mime == "application/bincode" || mime == "bincode" ||
    ctype.elim false fun predicate => predicate mime

/-- The fields of `struct BincodeBody<U>` (src/body.rs) that carry the decode
state; the in-flight boxed future is modelled by running `pollOutcome`. -/
structure BincodeBody where
  limit : Nat
  length : Option Nat
  stream : Option Payload
  err : Option BincodePayloadError

/-- `BincodeBody::new` (src/body.rs): gate on content type; on rejection store
`ContentType` with no stream; otherwise record the parsed Content-Length and
take the payload stream. The built-in limit is 262,144 in both branches. -/
def BincodeBody.new (req : HttpRequest) (payload : Payload)
    (ctype : Option (String → Bool)) : BincodeBody :=
  if contentTypeGate req.contentType ctype then
    { limit := 262144, length := req.contentLength,
      stream := some payload, err := none }
  else
    { limit := 262144, length := none, stream := none,
      err := some BincodePayloadError.ContentType }

/-- `BincodeBody::limit` (src/body.rs): replace the max payload size. Named
`setLimit` because the field is already called `limit`. -/
def BincodeBody.setLimit (b : BincodeBody) (limit : Nat) : BincodeBody :=
  { b with limit := limit }

/-- The drain loop of the async block in `<BincodeBody as Future>::poll`
(src/body.rs): pull items one at a time; a transport failure becomes
`Payload`; if appending the chunk would push the buffer past the limit,
fail with `Overflow` without appending and without pulling further items;
otherwise append and continue. Returns the loop result together with the
number of items actually pulled from the stream. -/
def drain (limit : Nat) (body : List Nat) :
    Payload → Except BincodePayloadError (List Nat) × Nat
  | [] => (Except.ok body, 0)
  | item :: rest =>
    match item with
    | Except.error e => (Except.error (BincodePayloadError.Payload e), 1)
    | Except.ok chunk =>
      if body.length + chunk.length > limit then
        (Except.error BincodePayloadError.Overflow, 1)
      else
        ((drain limit (body ++ chunk) rest).1,
         (drain limit (body ++ chunk) rest).2 + 1)

/-- Drain the stream and, on success, hand the finalized buffer to the
deserializer (the `Ok(bincode::deserialize(&body)?)` tail of the async block
in src/body.rs), wrapping codec failures as `Deserialize`. -/
def drainThen {U : Type} (deser : List Nat → Except String U)
    (limit : Nat) (stream : Payload) : Except BincodePayloadError U × Nat :=
  match drain limit [] stream with
  | (Except.error e, n) => (Except.error e, n)
  | (Except.ok body, n) =>
    match deser body with
    | Except.ok v => (Except.ok v, n)
    | Except.error d => (Except.error (BincodePayloadError.Deserialize d), n)

/-- `<BincodeBody as Future>::poll` driven to completion (src/body.rs):
return the stored error if any; then check the declared length against the
limit and fail with `Overflow` before touching the stream; then unwrap the
stream (`none` models the unreachable panic of `.unwrap()`) and run the
drain-then-deserialize future. The second component counts chunk reads. -/
def pollOutcome {U : Type} (deser : List Nat → Except String U)
    (b : BincodeBody) : Option (Except BincodePayloadError U × Nat) :=
  match b.err with
  | some e => some (Except.error e, 0)
  | none =>
    match b.length with
    | some len =>
      if len > b.limit then some (Except.error BincodePayloadError.Overflow, 0)
      else
        match b.stream with
        | none => none
        | some stream => some (drainThen deser b.limit stream)
    | none =>
      match b.stream with
      | none => none
      | some stream => some (drainThen deser b.limit stream)

/-- `struct BincodeConfig` (src/config.rs): limit, optional error handler,
optional content-type predicate. -/
structure BincodeConfig where
  limit : Nat
  err_handler : Option (BincodePayloadError → HttpRequest → ActixError)
  content_type : Option (String → Bool)

/-- `DEFAULT_CONFIG` (src/config.rs): limit 32,768, no handler, no
predicate. -/
def DEFAULT_CONFIG : BincodeConfig :=
  { limit := 32768, err_handler := none, content_type := none }

/-- `BincodeConfig::limit` (src/config.rs). Named `setLimit` because the
field is already called `limit`. -/
def BincodeConfig.setLimit (c : BincodeConfig) (limit : Nat) : BincodeConfig :=
  { c with limit := limit }

/-- `BincodeConfig::error_handler` (src/config.rs). -/
def BincodeConfig.error_handler (c : BincodeConfig)
    (f : BincodePayloadError → HttpRequest → ActixError) : BincodeConfig :=
  { c with err_handler := some f }

/-- `BincodeConfig::content_type_raw` (src/config.rs). -/
def BincodeConfig.content_type_raw (c : BincodeConfig)
    (predicate : String → Bool) : BincodeConfig :=
  { c with content_type := some predicate }

/-- The configuration instances attached to the request context: a
directly-typed `BincodeConfig` app data entry, and a `Data<BincodeConfig>`
wrapped entry. -/
structure AppData where
  typedConfig : Option BincodeConfig
  dataConfig : Option BincodeConfig

/-- `BincodeConfig::from_req` (src/config.rs): check `T`, then `Data<T>`,
in that order, and fall back to the default config. -/
def BincodeConfig.from_req (app : AppData) : BincodeConfig :=
  match app.typedConfig with
  | some c => c
  | none =>
    match app.dataConfig with
    | some c => c
    | none => DEFAULT_CONFIG

/-- The `BincodeBody` built by `<Bincode as FromRequest>::from_request`
(src/lib.rs): `BincodeBody::new(req, payload, ctype).limit(limit)` with
`ctype` and `limit` taken from the resolved configuration. -/
def fromRequestBody (req : HttpRequest) (app : AppData)
    (payload : Payload) : BincodeBody :=
  (BincodeBody.new req payload (BincodeConfig.from_req app).content_type
    ).setLimit (BincodeConfig.from_req app).limit

/-- `<Bincode as FromRequest>::from_request` (src/lib.rs) driven to
completion: run the body future; on error apply the configured error handler
when present, otherwise the default `e.into()` conversion. -/
def Bincode.fromRequest {U : Type} (deser : List Nat → Except String U)
    (req : HttpRequest) (app : AppData) (payload : Payload) :
    Option (Except ActixError U × Nat) :=
  (pollOutcome deser (fromRequestBody req app payload)).map fun r =>
    (match r.1 with
     | Except.error e =>
       Except.error
         (match (BincodeConfig.from_req app).err_handler with
          | some h => h e req
          | none => ActixError.fromPayload e)
     | Except.ok v => Except.ok v,
     r.2)

/-- Total byte length of the first `j` chunks of a stream. -/
def chunksLen (chunks : List (List Nat)) (j : Nat) : Nat :=
  ((chunks.take j).map List.length).sum

/-- The test payload type of src/tests.rs: `MyObject { name: String,
number: i32 }`. The string is modelled by its UTF-8 byte content; the i32 by
an integer (theorems carry the i32 range as a hypothesis). -/
structure MyObject where
  name : List Nat
  number : Int
deriving DecidableEq

/-- Little-endian 8-byte encoding of a u64, as the bincode v1 default
configuration writes a collection length. -/
def u64le (n : Nat) : List Nat :=
  [n % 256, n / 256 % 256, n / 65536 % 256, n / 16777216 % 256,
   n / 4294967296 % 256, n / 1099511627776 % 256,
   n / 281474976710656 % 256, n / 72057594037927936 % 256]

/-- Little-endian 4-byte encoding of an i32 (two's complement), as the
bincode v1 default configuration writes an `i32`. -/
def i32le (i : Int) : List Nat :=
  ((i % 4294967296).toNat % 256) ::
    ((i % 4294967296).toNat / 256 % 256) ::
    ((i % 4294967296).toNat / 65536 % 256) ::
    [(i % 4294967296).toNat / 16777216 % 256]

/-- Value of a little-endian byte list. -/
def leVal (bs : List Nat) : Nat :=
  bs.foldr (fun b acc => b + 256 * acc) 0

/-- Modelled from the spec: the binary codec is an external collaborator
("the codec is treated as an opaque, self-describing binary format").
`bincode::serialize` for `MyObject` under bincode v1 defaults: the string as
u64 little-endian byte length followed by its UTF-8 bytes, then the i32 as 4
little-endian bytes. This is the encoding the `Responder` impl and
`HttpResponseBuilderExt::bincode` produce. -/
def bincodeSerializeMyObject (v : MyObject) : List Nat :=
  u64le v.name.length ++ v.name ++ i32le v.number

/-- Modelled from the spec: `bincode::deserialize::<MyObject>` under bincode
v1 defaults: read 8 bytes as the little-endian string byte length, that many
string bytes, then 4 bytes as a little-endian two's complement i32; fail on a
short input; bytes after the value are ignored. -/
def bincodeDeserializeMyObject (bs : List Nat) : Except String MyObject :=
  if 8 ≤ bs.length then
    if leVal (bs.take 8) + 4 ≤ (bs.drop 8).length then
      Except.ok
        { name := (bs.drop 8).take (leVal (bs.take 8)),
          number :=
            if leVal (((bs.drop 8).drop (leVal (bs.take 8))).take 4)
                < 2147483648 then
              (leVal (((bs.drop 8).drop (leVal (bs.take 8))).take 4) : Int)
            else
              (leVal (((bs.drop 8).drop (leVal (bs.take 8))).take 4) : Int)
                - 4294967296 }
    else Except.error "io error: unexpected end of file"
  else Except.error "io error: unexpected end of file"

theorem chunksLen_zero (chunks : List (List Nat)) : chunksLen chunks 0 = 0 := by
  simp [chunksLen]

theorem chunksLen_nil (j : Nat) : chunksLen [] j = 0 := by
  simp [chunksLen]

theorem chunksLen_succ_cons (c : List Nat) (rest : List (List Nat)) (j : Nat) :
    chunksLen (c :: rest) (j + 1) = c.length + chunksLen rest j := by
  simp [chunksLen]

theorem chunksLen_mono (chunks : List (List Nat)) :
    ∀ j j2, j ≤ j2 → chunksLen chunks j ≤ chunksLen chunks j2 := by
  induction chunks with
  | nil => intro j j2 h; simp [chunksLen_nil]
  | cons c rest ih =>
    intro j j2 h
    cases j with
    | zero => simp [chunksLen_zero]
    | succ j0 =>
      cases j2 with
      | zero => omega
      | succ j1 =>
        rw [chunksLen_succ_cons, chunksLen_succ_cons]
        have := ih j0 j1 (by omega)
        omega

theorem drain_overflow_aux (limit : Nat) :
    ∀ (chunks : List (List Nat)) (body : List Nat) (k : Nat),
      1 ≤ k → k ≤ chunks.length →
      body.length + chunksLen chunks (k - 1) ≤ limit →
      limit < body.length + chunksLen chunks k →
      drain limit body (chunks.map Except.ok) =
        (Except.error BincodePayloadError.Overflow, k) := by
  intro chunks
  induction chunks with
  | nil => intro body k h1 h2 _ _; simp at h2; omega
  | cons c rest ih =>
    intro body k h1 h2 h3 h4
    cases k with
    | zero => omega
    | succ k0 =>
      cases k0 with
      | zero =>
        rw [chunksLen_succ_cons, chunksLen_zero] at h4
        simp only [List.map_cons, drain]
        rw [if_pos (by omega)]
      | succ k1 =>
        rw [chunksLen_succ_cons] at h4
        have h3e : body.length + (c.length + chunksLen rest k1) ≤ limit := by
          have : k1 + 1 + 1 - 1 = k1 + 1 := by omega
          rw [this, chunksLen_succ_cons] at h3
          omega
        simp only [List.map_cons, drain]
        rw [if_neg (by omega)]
        have hr := ih (body ++ c) (k1 + 1) (by omega)
          (by simp at h2 ⊢; omega)
          (by simp; omega)
          (by simp; omega)
        rw [hr]

theorem drain_ok_aux (limit : Nat) :
    ∀ (chunks : List (List Nat)) (body : List Nat),
      body.length + chunksLen chunks chunks.length ≤ limit →
      drain limit body (chunks.map Except.ok) =
        (Except.ok (body ++ chunks.flatten), chunks.length) := by
  intro chunks
  induction chunks with
  | nil => intro body _; simp [drain]
  | cons c rest ih =>
    intro body h
    rw [List.length_cons, chunksLen_succ_cons] at h
    have hrest : chunksLen rest rest.length ≥ 0 := Nat.zero_le _
    simp only [List.map_cons, drain]
    rw [if_neg (by omega)]
    have hr := ih (body ++ c) (by simp; omega)
    rw [hr]
    simp

theorem leVal_u64le (n : Nat) (h : n < 18446744073709551616) :
    leVal (u64le n) = n := by
  simp [leVal, u64le]
  omega

theorem leVal_i32le (i : Int) : leVal (i32le i) = (i % 4294967296).toNat := by
  simp [leVal, i32le]
  omega

theorem bincode_roundtrip (v : MyObject)
    (h1 : v.name.length < 18446744073709551616)
    (h2 : -2147483648 ≤ v.number) (h3 : v.number < 2147483648) :
    bincodeDeserializeMyObject (bincodeSerializeMyObject v) = Except.ok v := by
  obtain ⟨name, number⟩ := v
  simp only at h1 h2 h3
  have hser : bincodeSerializeMyObject ⟨name, number⟩
      = u64le name.length ++ (name ++ i32le number) := by
    simp [bincodeSerializeMyObject]
  have hlen8 : (u64le name.length).length = 8 := rfl
  have hi32len : (i32le number).length = 4 := rfl
  have htake8 : (bincodeSerializeMyObject ⟨name, number⟩).take 8
      = u64le name.length := by
    rw [hser]; exact List.take_left' hlen8
  have hdrop8 : (bincodeSerializeMyObject ⟨name, number⟩).drop 8
      = name ++ i32le number := by
    rw [hser]; exact List.drop_left' hlen8
  have hval8 : leVal ((bincodeSerializeMyObject ⟨name, number⟩).take 8)
      = name.length := by
    rw [htake8]; exact leVal_u64le _ h1
  have hlen : 8 ≤ (bincodeSerializeMyObject ⟨name, number⟩).length := by
    rw [hser]
    simp [hlen8]
  unfold bincodeDeserializeMyObject
  rw [if_pos hlen, hval8, hdrop8]
  rw [if_pos (by simp [hi32len])]
  have hname : (name ++ i32le number).take name.length = name :=
    List.take_left _ _
  have hnum : ((name ++ i32le number).drop name.length).take 4
      = i32le number := by
    rw [List.drop_left]
    exact List.take_of_length_le (le_of_eq hi32len)
  rw [hname, hnum, leVal_i32le]
  refine congrArg Except.ok (congrArg (MyObject.mk name) ?_)
  split <;> omega

theorem pollOutcome_hint_overflow {U : Type} (deser : List Nat → Except String U)
    (req : HttpRequest) (ctype : Option (String → Bool)) (lim : Nat)
    (payload : Payload) (n : Nat)
    (hg : contentTypeGate req.contentType ctype = true)
    (hn : req.contentLength = some n) (hlt : lim < n) :
    pollOutcome deser ((BincodeBody.new req payload ctype).setLimit lim) =
      some (Except.error BincodePayloadError.Overflow, 0) := by
  simp [BincodeBody.new, hg, BincodeBody.setLimit, pollOutcome, hn, hlt]

theorem pollOutcome_drains {U : Type} (deser : List Nat → Except String U)
    (req : HttpRequest) (ctype : Option (String → Bool)) (lim : Nat)
    (payload : Payload)
    (hg : contentTypeGate req.contentType ctype = true)
    (hle : ∀ n, req.contentLength = some n → n ≤ lim) :
    pollOutcome deser ((BincodeBody.new req payload ctype).setLimit lim) =
      some (drainThen deser lim payload) := by
  cases hcl : req.contentLength with
  | none => simp [BincodeBody.new, hg, BincodeBody.setLimit, pollOutcome, hcl]
  | some n =>
    have hn := hle n hcl
    simp [BincodeBody.new, hg, BincodeBody.setLimit, pollOutcome, hcl]
    omega

/-- C7: the default transport mapping of `BincodePayloadError` maps
`Overflow` to response status 413 (payload too large) and `ContentType`,
`Deserialize`, and `Payload` each to response status 400 (bad request). -/
theorem c7_default_status_mapping (d p : String) :
    BincodePayloadError.Overflow.error_response_status = 413 ∧
    BincodePayloadError.ContentType.error_response_status = 400 ∧
    (BincodePayloadError.Deserialize d).error_response_status = 400 ∧
    (BincodePayloadError.Payload p).error_response_status = 400 :=
  ⟨rfl, rfl, rfl, rfl⟩

/-- C9: configuration resolution is a pure total lookup: the directly-typed
config if present, else the Data-wrapped config if present, else the
process-wide default; exactly one of the three is used, with no merging. -/
theorem c9_config_resolution (app : AppData) (c c2 : BincodeConfig) :
    (app.typedConfig = some c → BincodeConfig.from_req app = c) ∧
    (app.typedConfig = none → app.dataConfig = some c2 →
      BincodeConfig.from_req app = c2) ∧
    (app.typedConfig = none → app.dataConfig = none →
      BincodeConfig.from_req app = DEFAULT_CONFIG) := by
  refine ⟨?_, ?_, ?_⟩
  · intro h; simp [BincodeConfig.from_req, h]
  · intro h1 h2; simp [BincodeConfig.from_req, h1, h2]
  · intro h1 h2; simp [BincodeConfig.from_req, h1, h2]

/-- Witness for C9 at a context with no attached configuration. -/
theorem c9_config_resolution_witness :
    BincodeConfig.from_req ⟨none, none⟩ = DEFAULT_CONFIG :=
  (c9_config_resolution ⟨none, none⟩ DEFAULT_CONFIG DEFAULT_CONFIG).2.2 rfl rfl

/-- C5: with no custom predicate installed, the gate accepts exactly the
descriptors "application/bincode" and "bincode"; every other descriptor is
rejected with `ContentType` and zero chunks are read from the stream. -/
theorem c5_fixed_accept_set {U : Type} (deser : List Nat → Except String U)
    (req : HttpRequest) (payload : Payload) :
    ((req.contentType = "application/bincode" ∨ req.contentType = "bincode") →
      (BincodeBody.new req payload none).err = none) ∧
    (req.contentType ≠ "application/bincode" → req.contentType ≠ "bincode" →
      pollOutcome deser (BincodeBody.new req payload none) =
        some (Except.error BincodePayloadError.ContentType, 0)) := by
  constructor
  · intro h
    have hg : contentTypeGate req.contentType none = true := by
      rcases h with h | h <;> simp [contentTypeGate, h]
    simp [BincodeBody.new, hg]
  · intro h1 h2
    have hg : contentTypeGate req.contentType none = false := by
      simp [contentTypeGate, h1, h2]
    simp [BincodeBody.new, hg, pollOutcome]

/-- Witness for C5 at the descriptor "text/plain". -/
theorem c5_fixed_accept_set_witness :
    pollOutcome (fun (_ : List Nat) => (Except.error "" : Except String Nat))
        (BincodeBody.new ⟨some "text/plain", none⟩ [] none) =
      some (Except.error BincodePayloadError.ContentType, 0) :=
  (c5_fixed_accept_set (fun (_ : List Nat) => (Except.error "" : Except String Nat))
    ⟨some "text/plain", none⟩ []).2 (by decide) (by decide)

/-- C10: with no Content-Type header the gate sees the empty string, so the
decode fails with `ContentType` (zero reads) unless an installed predicate
accepts the empty string; the fixed accept set never matches it. -/
theorem c10_missing_content_type_header {U : Type}
    (deser : List Nat → Except String U) (req : HttpRequest)
    (payload : Payload) (p : String → Bool)
    (h : req.contentTypeHeader = none) :
    req.contentType = "" ∧
    pollOutcome deser (BincodeBody.new req payload none) =
      some (Except.error BincodePayloadError.ContentType, 0) ∧
    ((BincodeBody.new req payload (some p)).err = none ↔ p "" = true) ∧
    contentTypeGate "" none = false := by
  have hct : req.contentType = "" := by simp [HttpRequest.contentType, h]
  refine ⟨hct, ?_, ?_, by decide⟩
  · have hg : contentTypeGate req.contentType none = false := by
      rw [hct]; decide
    simp [BincodeBody.new, hg, pollOutcome]
  · have hg : contentTypeGate req.contentType (some p) = p "" := by
      rw [hct]; simp [contentTypeGate]
    cases hpv : p "" with
    | true => simp [BincodeBody.new, hg, hpv]
    | false => simp [BincodeBody.new, hg, hpv]

/-- Witness for C10 at a header-less request and a predicate accepting
everything. -/
theorem c10_missing_content_type_header_witness :
    HttpRequest.contentType ⟨none, none⟩ = "" ∧
    pollOutcome (fun (_ : List Nat) => (Except.error "" : Except String Nat))
        (BincodeBody.new ⟨none, none⟩ [] none) =
      some (Except.error BincodePayloadError.ContentType, 0) ∧
    ((BincodeBody.new ⟨none, none⟩ [] (some fun _ => true)).err = none ↔
      (fun (_ : String) => true) "" = true) ∧
    contentTypeGate "" none = false :=
  c10_missing_content_type_header
    (fun (_ : List Nat) => (Except.error "" : Except String Nat))
    ⟨none, none⟩ [] (fun _ => true) rfl

/-- C3 counterexample: a predicate returning false on "application/bincode"
does not override the fixed accept set — the gate still accepts, so the
gating outcome does not equal the predicate's return value. -/
theorem c3_counterexample :
    contentTypeGate "application/bincode" (some fun _ => false) = true ∧
    (fun (_ : String) => false) "application/bincode" = false :=
  ⟨rfl, rfl⟩

/-- C3 (amended): an installed predicate extends the fixed accept set rather
than overriding it: descriptors in the fixed set are accepted regardless of
the predicate, and for every other descriptor the gating outcome equals the
predicate's return value. -/
theorem c3_predicate_extends_gate (mime : String) (p : String → Bool) :
    ((mime = "application/bincode" ∨ mime = "bincode") →
      contentTypeGate mime (some p) = true) ∧
    (mime ≠ "application/bincode" → mime ≠ "bincode" →
      contentTypeGate mime (some p) = p mime) := by
  constructor
  · rintro (h | h) <;> simp [contentTypeGate, h]
  · intro h1 h2; simp [contentTypeGate, h1, h2]

/-- Witness for the amended C3 at the descriptor "text/plain". -/
theorem c3_predicate_extends_gate_witness :
    contentTypeGate "text/plain" (some fun s => s == "text/plain") =
      (fun s => s == "text/plain") "text/plain" :=
  (c3_predicate_extends_gate "text/plain" fun s => s == "text/plain").2
    (by decide) (by decide)

/-- C4 counterexample: with no configuration attached, the extraction path
does not observe the 256 KiB decoder default: a declared length of 40,000
bytes (within 262,144) is rejected with `Overflow` after zero reads, because
the resolved default configuration limit 32,768 is applied. -/
theorem c4_counterexample :
    Bincode.fromRequest bincodeDeserializeMyObject
        ⟨some "application/bincode", some "40000"⟩ ⟨none, none⟩ [] =
      some (Except.error
        (ActixError.fromPayload BincodePayloadError.Overflow), 0) ∧
    40000 ≤ 262144 ∧ 32768 < 40000 :=
  ⟨by rfl, by norm_num, by norm_num⟩

/-- C4 (amended): two independently resolvable defaults exist — the
decoder-level built-in default 262,144 set by `BincodeBody::new` and the
configuration-level default 32,768 — but the extraction path always applies
the resolved configuration's limit, so with no configuration attached it
observes 32,768, never 262,144. -/
theorem c4_two_tier_defaults (req : HttpRequest) (payload : Payload)
    (ctype : Option (String → Bool)) (app : AppData) :
    (BincodeBody.new req payload ctype).limit = 262144 ∧
    DEFAULT_CONFIG.limit = 32768 ∧
    (fromRequestBody req app payload).limit =
      (BincodeConfig.from_req app).limit ∧
    (fromRequestBody req ⟨none, none⟩ payload).limit = 32768 := by
  refine ⟨?_, rfl, rfl, rfl⟩
  unfold BincodeBody.new
  split <;> rfl

/-- C1: the drain loop of `BincodeBody`'s poll keeps the buffer within the
resolved limit at every point — it checks `accumulated + chunk > limit`
before appending — and for a stream whose running total first exceeds the
limit at chunk k it reads exactly k chunks and fails with `Overflow` without
appending chunk k or requesting any later chunk. -/
theorem c1_overflow_at_chunk_k (lim k : Nat) (chunks : List (List Nat))
    (h1 : 1 ≤ k) (h2 : k ≤ chunks.length)
    (h3 : chunksLen chunks (k - 1) ≤ lim) (h4 : lim < chunksLen chunks k) :
    drain lim [] (chunks.map Except.ok) =
      (Except.error BincodePayloadError.Overflow, k) ∧
    (∀ j, j < k → chunksLen chunks j ≤ lim) := by
  constructor
  · exact drain_overflow_aux lim chunks [] k h1 h2 (by simpa using h3)
      (by simpa using h4)
  · intro j hj
    exact le_trans (chunksLen_mono chunks j (k - 1) (by omega)) h3

/-- Witness for C1: limit 5, chunks of sizes 3 and 3; the total first exceeds
the limit at chunk 2, and the drain reads exactly 2 chunks and overflows. -/
theorem c1_overflow_at_chunk_k_witness :
    drain 5 [] ([[1, 2, 3], [4, 5, 6]].map Except.ok) =
      (Except.error BincodePayloadError.Overflow, 2) :=
  (c1_overflow_at_chunk_k 5 2 [[1, 2, 3], [4, 5, 6]] (by decide) (by decide)
    (by decide) (by decide)).1

/-- C2: once the content type passed the gate, a declared length hint
strictly greater than the resolved limit resolves the future to `Overflow`
with zero stream reads; an absent, unparseable, or within-bounds hint lets
draining proceed. -/
theorem c2_length_hint_fast_path {U : Type}
    (deser : List Nat → Except String U) (req : HttpRequest)
    (ctype : Option (String → Bool)) (lim : Nat) (payload : Payload)
    (hg : contentTypeGate req.contentType ctype = true) :
    (∀ n, req.contentLength = some n → lim < n →
      pollOutcome deser ((BincodeBody.new req payload ctype).setLimit lim) =
        some (Except.error BincodePayloadError.Overflow, 0)) ∧
    ((∀ n, req.contentLength = some n → n ≤ lim) →
      pollOutcome deser ((BincodeBody.new req payload ctype).setLimit lim) =
        some (drainThen deser lim payload)) := by
  constructor
  · intro n hn hlt
    exact pollOutcome_hint_overflow deser req ctype lim payload n hg hn hlt
  · intro hle
    exact pollOutcome_drains deser req ctype lim payload hg hle

/-- Witness for C2: declared length 1000000 against limit 100 resolves to
`Overflow` with zero chunks read. -/
theorem c2_length_hint_fast_path_witness :
    pollOutcome (fun (_ : List Nat) => (Except.error "" : Except String Nat))
        ((BincodeBody.new ⟨some "bincode", some "1000000"⟩ [] none
          ).setLimit 100) =
      some (Except.error BincodePayloadError.Overflow, 0) :=
  (c2_length_hint_fast_path
    (fun (_ : List Nat) => (Except.error "" : Except String Nat))
    ⟨some "bincode", some "1000000"⟩ none 100 [] (by decide)).1
    1000000 (by decide) (by decide)

/-- C8: for every failure produced by a decode through the extractor, an
installed error handler is invoked with the failure and the originating
request and its return value is the resulting error verbatim; with none
installed the default conversion applies. -/
theorem c8_error_handler_override {U : Type}
    (deser : List Nat → Except String U) (req : HttpRequest) (app : AppData)
    (payload : Payload)
    (f : BincodePayloadError → HttpRequest → ActixError)
    (e : BincodePayloadError) (n : Nat) :
    ((BincodeConfig.from_req app).err_handler = some f →
      pollOutcome deser (fromRequestBody req app payload) =
        some (Except.error e, n) →
      Bincode.fromRequest deser req app payload =
        some (Except.error (f e req), n)) ∧
    ((BincodeConfig.from_req app).err_handler = none →
      pollOutcome deser (fromRequestBody req app payload) =
        some (Except.error e, n) →
      Bincode.fromRequest deser req app payload =
        some (Except.error (ActixError.fromPayload e), n)) := by
  constructor <;> intro hh hp <;> simp [Bincode.fromRequest, hp, hh]

/-- Witness for C8: a handler mapping every failure to a fixed custom error
is applied verbatim on a content-type failure. -/
theorem c8_error_handler_override_witness :
    Bincode.fromRequest
        (fun (_ : List Nat) => (Except.error "" : Except String Nat))
        ⟨none, none⟩
        ⟨some ⟨32768, some fun _ _ => ActixError.custom 99, none⟩, none⟩ [] =
      some (Except.error (ActixError.custom 99), 0) :=
  (c8_error_handler_override
    (fun (_ : List Nat) => (Except.error "" : Except String Nat))
    ⟨none, none⟩
    ⟨some ⟨32768, some fun _ _ => ActixError.custom 99, none⟩, none⟩ []
    (fun _ _ => ActixError.custom 99) BincodePayloadError.ContentType 0).1
    rfl rfl

/-- C6: for a value of the serializable target type (in-range i32 and a
representable string length), decoding the codec's encoding of the value
through a gated, within-limit decode succeeds and yields the original value:
decode(encode(v)) == v at the codec boundary. -/
theorem c6_encode_decode_roundtrip (v : MyObject) (chunks : List (List Nat))
    (req : HttpRequest) (ctype : Option (String → Bool)) (lim : Nat)
    (h1 : v.name.length < 18446744073709551616)
    (h2 : -2147483648 ≤ v.number) (h3 : v.number < 2147483648)
    (hchunks : chunks.flatten = bincodeSerializeMyObject v)
    (hg : contentTypeGate req.contentType ctype = true)
    (hhint : ∀ n, req.contentLength = some n → n ≤ lim)
    (hsize : (bincodeSerializeMyObject v).length ≤ lim) :
    pollOutcome bincodeDeserializeMyObject
        ((BincodeBody.new req (chunks.map Except.ok) ctype).setLimit lim) =
      some (Except.ok v, chunks.length) := by
  rw [pollOutcome_drains bincodeDeserializeMyObject req ctype lim
    (chunks.map Except.ok) hg hhint]
  have hclen : chunksLen chunks chunks.length =
      (bincodeSerializeMyObject v).length := by
    rw [← hchunks, List.length_flatten]
    simp [chunksLen]
  have hdrain := drain_ok_aux lim chunks [] (by simpa [hclen] using hsize)
  rw [drainThen, hdrain]
  simp only [List.nil_append, hchunks]
  rw [bincode_roundtrip v h1 h2 h3]

/-- Witness for C6: scenario A of the spec — the encoding of
`{name: "test", number: 7}` (16 bytes, UTF-8 bytes of "test") sent as one
chunk with descriptor "application/bincode", declared length 16, limit
32,768, decodes back to the original value. -/
theorem c6_encode_decode_roundtrip_witness :
    pollOutcome bincodeDeserializeMyObject
        ((BincodeBody.new ⟨some "application/bincode", some "16"⟩
          ([bincodeSerializeMyObject ⟨[116, 101, 115, 116], 7⟩].map Except.ok)
          none).setLimit 32768) =
      some (Except.ok ⟨[116, 101, 115, 116], 7⟩, 1) :=
  c6_encode_decode_roundtrip ⟨[116, 101, 115, 116], 7⟩
    [bincodeSerializeMyObject ⟨[116, 101, 115, 116], 7⟩]
    ⟨some "application/bincode", some "16"⟩ none 32768
    (by decide) (by decide) (by decide) (by simp) (by decide)
    (by intro n hn; simp [HttpRequest.contentLength, parseDecimal] at hn; omega)
    (by decide)
